import Mathlib

/-!
Shallow embedding of `src/linked_list/linked_list.py`, a doubly-linked list
with an explicit cursor (`current`).  Python objects live on a heap: a `Node`
is a record and the heap is a list of records addressed by allocation index.
A `LinkedList` instance is the record `LLState` below.  Python exceptions are
modelled by `Except PyErr`; because exceptions propagate after earlier field
writes have happened, every operation returns its outcome together with the
state at the moment of return or raise.  `length` is an `Int` (a Python int).
Index arguments are naturals: the specification excludes negative indexing.
-/

deriving instance DecidableEq for Except

namespace LinkedList

/-- One Python `Node` object: `data`, `prev_node`, `next_node` (`None` = `none`,
a reference = the heap index of the referenced node). -/
structure NodeRec where
  data : String
  prev_node : Option Nat
  next_node : Option Nat
deriving DecidableEq

/-- Exceptions that the Python code can raise: the `LinkedListError` of
the library (with its message) or an `AttributeError` from dereferencing
`None`. -/
inductive PyErr where
  | linkedListError (msg : String)
  | attributeError
deriving DecidableEq

/-- The `LinkedList` instance state: heap of all allocated nodes plus the four
attributes set in `__init__`.  `head`/`tail`/`current` are node references. -/
structure LLState where
  heap : List NodeRec
  head : Option Nat
  tail : Option Nat
  current : Option Nat
  length : Int
deriving DecidableEq

/-- Dereference a node. Reachable states only hold indices of allocated nodes,
so the default is never consulted there. -/
def getNode (h : List NodeRec) (i : Nat) : NodeRec :=
  h.getD i ⟨"", none, none⟩

/-- The loop body shared by `set_current_index` and `find_node_by_index`:
step `current = current.next_node` a given number of times.  Stepping from a
`None` current raises `AttributeError` (each caller converts it to its own
`LinkedListError`); at that moment `current` is `None` and no other field has
changed, so the raising state is recoverable from the input state. -/
def walkFwd : LLState → Nat → Except PyErr LLState
  | s, 0 => Except.ok s
  | s, k + 1 =>
    match s.current with
    | none => Except.error PyErr.attributeError
    | some i => walkFwd { s with current := (getNode s.heap i).next_node } k

/-- Method `LinkedList.set_current_index` (lines 88-108): bounds guard
`index != 0 and index > self.length - 1`, then `current = head` and `index`
forward steps, converting an `AttributeError` into
a `LinkedListError` whose message is "Invalid node was reached". -/
def set_current_index (s : LLState) (index : Nat) : Except PyErr Unit × LLState :=
  if index ≠ 0 ∧ (index : Int) > s.length - 1 then
    (Except.error (PyErr.linkedListError ("Index is out of bounds")), s)
  else
    let s1 : LLState := { s with current := s.head }
    match walkFwd s1 index with
    | Except.ok s2 => (Except.ok (), s2)
    | Except.error _ =>
      (Except.error (PyErr.linkedListError ("Invalid node was reached")),
        { s1 with current := none })

/-- Method `LinkedList.insert_node` (lines 110-159).  The `Node(data)` allocation
happens before `set_current_index`; the splice mirrors the Python statement
order, including the places where a `None` dereference would raise
`AttributeError`.  Returns the new node (its heap index). -/
def insert_node (s : LLState) (data : String) (after : Bool) (index : Nat) :
    Except PyErr Nat × LLState :=
  let newId := s.heap.length
  let s0 : LLState := { s with heap := s.heap ++ [⟨data, none, none⟩] }
  match set_current_index s0 index with
  | (Except.error e, s1) => (Except.error e, s1)
  | (Except.ok _, s1) =>
    if s1.length = 0 then
      (Except.ok newId,
        { s1 with head := some newId, tail := some newId,
                  current := some newId, length := s1.length + 1 })
    else if after then
      match s1.current with
      | none =>
        -- `new_node.prev_node = self.current` stores None (already None),
        -- then `self.current.next_node` raises AttributeError
        (Except.error PyErr.attributeError, s1)
      | some c =>
        let h1 := s1.heap.set newId { getNode s1.heap newId with prev_node := some c }
        let cNext := (getNode h1 c).next_node
        let h2 := h1.set newId { getNode h1 newId with next_node := cNext }
        if s1.tail = some c then
          -- at_tail: `self.tail = new_node`, then `self.current.next_node = new_node`
          (Except.ok newId,
            { s1 with heap := h2.set c { getNode h2 c with next_node := some newId },
                      tail := some newId, current := some newId,
                      length := s1.length + 1 })
        else
          match cNext with
          | none =>
            -- `self.current.next_node.prev_node = new_node` raises AttributeError
            (Except.error PyErr.attributeError, { s1 with heap := h2 })
          | some cn =>
            let h3 := h2.set cn { getNode h2 cn with prev_node := some newId }
            let h4 := h3.set c { getNode h3 c with next_node := some newId }
            (Except.ok newId,
              { s1 with heap := h4, current := some newId, length := s1.length + 1 })
    else
      match s1.current with
      | none =>
        -- `new_node.prev_node = self.current.prev_node` raises AttributeError
        (Except.error PyErr.attributeError, s1)
      | some c =>
        let h1 := s1.heap.set newId
          { getNode s1.heap newId with prev_node := (getNode s1.heap c).prev_node }
        let h2 := h1.set newId { getNode h1 newId with next_node := some c }
        if s1.head = some c then
          -- at_head: `self.head = new_node`, then `self.current.prev_node = new_node`
          (Except.ok newId,
            { s1 with heap := h2.set c { getNode h2 c with prev_node := some newId },
                      head := some newId, current := some newId,
                      length := s1.length + 1 })
        else
          match (getNode h2 c).prev_node with
          | none =>
            -- `self.current.prev_node.next_node = new_node` raises AttributeError
            (Except.error PyErr.attributeError, { s1 with heap := h2 })
          | some cp =>
            let h3 := h2.set cp { getNode h2 cp with next_node := some newId }
            let h4 := h3.set c { getNode h3 c with prev_node := some newId }
            (Except.ok newId,
              { s1 with heap := h4, current := some newId, length := s1.length + 1 })

/-- Method `LinkedList.modify_node` (lines 161-175): position the cursor, then
`self.current.data = new_data` (raises `AttributeError` on a `None` cursor).
Returns the modified node. -/
def modify_node (s : LLState) (new_data : String) (index : Nat) :
    Except PyErr Nat × LLState :=
  match set_current_index s index with
  | (Except.error e, s1) => (Except.error e, s1)
  | (Except.ok _, s1) =>
    match s1.current with
    | none => (Except.error PyErr.attributeError, s1)
    | some c =>
      (Except.ok c,
        { s1 with heap := s1.heap.set c { getNode s1.heap c with data := new_data } })

/-- Method `LinkedList.remove_node` (lines 177-202): position the cursor, relink the
neighbours (`head`/`tail` are not touched), return a copy of the removed data,
set `current` to the `next_node` of the removed node, decrement `length`.  Field
reads follow the Python statement order. -/
def remove_node (s : LLState) (index : Nat) : Except PyErr String × LLState :=
  match set_current_index s index with
  | (Except.error e, s1) => (Except.error e, s1)
  | (Except.ok _, s1) =>
    match s1.current with
    | none => (Except.error PyErr.attributeError, s1)
    | some c =>
      let cur0 := getNode s1.heap c
      let h1 :=
        match cur0.prev_node with
        | none => s1.heap
        | some p => s1.heap.set p { getNode s1.heap p with next_node := cur0.next_node }
      let cur1 := getNode h1 c
      let h2 :=
        match cur1.next_node with
        | none => h1
        | some nx => h1.set nx { getNode h1 nx with prev_node := cur1.prev_node }
      let cur2 := getNode h2 c
      (Except.ok cur2.data,
        { s1 with heap := h2, current := cur2.next_node, length := s1.length - 1 })

/-- Method `LinkedList.previous_node` (lines 204-216): move the cursor to
`prev_node` when that link is non-`None`, otherwise stay; return the cursor.
A `None` cursor raises `AttributeError`. -/
def previous_node (s : LLState) : Except PyErr Nat × LLState :=
  match s.current with
  | none => (Except.error PyErr.attributeError, s)
  | some c =>
    match (getNode s.heap c).prev_node with
    | none => (Except.ok c, s)
    | some p => (Except.ok p, { s with current := some p })

/-- Method `LinkedList.next_node` (lines 218-230): move the cursor to `next_node`
when that link is non-`None`, otherwise stay; return the cursor.  A `None`
cursor raises `AttributeError`. -/
def next_node (s : LLState) : Except PyErr Nat × LLState :=
  match s.current with
  | none => (Except.error PyErr.attributeError, s)
  | some c =>
    match (getNode s.heap c).next_node with
    | none => (Except.ok c, s)
    | some nx => (Except.ok nx, { s with current := some nx })

/-- Method `LinkedList.find_node_by_index` (lines 232-252): `current = head`, then
`index` forward steps with an `AttributeError` converted to
a `LinkedListError` whose message is "Index is out of bounds"; no bounds
guard.  Returns
`self.current`, which can be `None`. -/
def find_node_by_index (s : LLState) (index : Nat) :
    Except PyErr (Option Nat) × LLState :=
  let s1 : LLState := { s with current := s.head }
  match walkFwd s1 index with
  | Except.ok s2 => (Except.ok s2.current, s2)
  | Except.error _ =>
    (Except.error (PyErr.linkedListError ("Index is out of bounds")),
      { s1 with current := none })

/-- The `while self.current is not None` loop of `gather_node_data`
(lines 306-311), with explicit fuel because the Python loop does not
terminate on every input: `none` means the loop is still running after
`fuel` iterations.  The walk reference `self.current` advances only inside
the match branch, exactly as in the source; `index` increments every
iteration. -/
def gatherLoop (indexes : List Nat) (all_nodes : Bool) :
    Nat → LLState → Nat → List (Nat × String) →
      Option (List (Nat × String) × LLState)
  | 0, _, _, _ => none
  | fuel + 1, s, index, acc =>
    match s.current with
    | none => some (acc, s)
    | some c =>
      if all_nodes || indexes.contains index then
        gatherLoop indexes all_nodes fuel
          { s with current := (getNode s.heap c).next_node }
          (index + 1) (acc ++ [(index, (getNode s.heap c).data)])
      else
        gatherLoop indexes all_nodes fuel s (index + 1) acc

/-- Method `LinkedList.gather_node_data` (lines 279-313): `current = head`,
`index = 0`, `list_data = []`, then the while loop.  A `None` `indexes`
argument is replaced by the empty sequence, as in the source. -/
def gather_node_data (s : LLState) (indexes : List Nat) (all_nodes : Bool)
    (fuel : Nat) : Option (List (Nat × String) × LLState) :=
  gatherLoop indexes all_nodes fuel { s with current := s.head } 0 []

/-- A freshly constructed `LinkedList()`: all attributes `None`, length 0. -/
def emptyList : LLState := ⟨[], none, none, none, 0⟩

/-- The tail of the `__init__` population loop (lines 69-74): element number
`k` (k ≥ 1) is inserted with `after=True, index=k-1`.  No insertion raises, so
the state component of each result is the state after the call. -/
def buildLoop : LLState → Nat → List String → LLState
  | s, _, [] => s
  | s, k, d :: ds => buildLoop (insert_node s d true (k - 1)).2 (k + 1) ds

/-- Constructor `LinkedList.__init__` with `initial_data` (lines 56-74): the first element
is inserted with the default `after=False, index=0`, each later element with
`after=True` at the index of the element inserted just before it. -/
def fromList : List String → LLState
  | [] => emptyList
  | d :: ds => buildLoop (insert_node emptyList d false 0).2 1 ds

/-- The node record at position `i` of a well-formed chain of `n` values:
links to the neighbouring positions, `none` at the ends. -/
def canonNode (n i : Nat) (d : String) : NodeRec :=
  ⟨d, if i = 0 then none else some (i - 1), if i + 1 = n then none else some (i + 1)⟩

/-- The heap that populating from `xs` produces: node `i` (in allocation
order) holds `xs[i]` and the chain links of position `i`. -/
def canonHeap (xs : List String) : List NodeRec :=
  (List.range xs.length).map fun i => canonNode xs.length i (xs.getD i (""))

/-- The state `LinkedList(xs)` reaches: the chain of `xs` with head at node 0
and tail and cursor on the last allocated node. -/
def canonState (xs : List String) : LLState :=
  if xs.length = 0 then emptyList
  else
    ⟨canonHeap xs, some 0, some (xs.length - 1), some (xs.length - 1),
      (xs.length : Int)⟩

/-- State after `k` repeated `stepForward()` calls (the node returned by each
call is discarded, as when Python callers invoke the method repeatedly). -/
def nextIter : Nat → LLState → LLState
  | 0, s => s
  | k + 1, s => nextIter k (next_node s).2

theorem length_canonHeap (xs : List String) :
    (canonHeap xs).length = xs.length := by
  simp [canonHeap]

theorem getElem?_canonHeap (xs : List String) (i : Nat) (hi : i < xs.length) :
    (canonHeap xs)[i]? = some (canonNode xs.length i (xs.getD i (""))) := by
  simp [canonHeap, List.getElem?_range, hi]

theorem getNode_canonHeap (xs : List String) (rest : List NodeRec) (j : Nat)
    (hj : j < xs.length) :
    getNode (canonHeap xs ++ rest) j = canonNode xs.length j (xs.getD j ("")) := by
  have h1 : (canonHeap xs ++ rest)[j]? = (canonHeap xs)[j]? :=
    List.getElem?_append_left (by rw [length_canonHeap]; exact hj)
  simp [getNode, h1, getElem?_canonHeap xs j hj]

theorem getNode_canonHeap0 (xs : List String) (j : Nat) (hj : j < xs.length) :
    getNode (canonHeap xs) j = canonNode xs.length j (xs.getD j ("")) := by
  have := getNode_canonHeap xs [] j hj
  simpa using this

theorem getNode_set_ne (l : List NodeRec) (i j : Nat) (a : NodeRec)
    (h : i ≠ j) : getNode (l.set i a) j = getNode l j := by
  simp [getNode, List.getElem?_set_ne h]

theorem set_append_length (l : List NodeRec) (a b : NodeRec) :
    (l ++ [a]).set l.length b = l ++ [b] := by
  induction l with
  | nil => rfl
  | cons x l ih => simp [List.set, ih]

theorem getNode_append_length (l : List NodeRec) (a : NodeRec) :
    getNode (l ++ [a]) l.length = a := by
  simp [getNode, List.getElem?_concat_length]

theorem set_canonHeap_append (xs : List String) (a b : NodeRec) :
    (canonHeap xs ++ [a]).set xs.length b = canonHeap xs ++ [b] := by
  rw [← length_canonHeap xs]
  exact set_append_length _ _ _

theorem getNode_canonHeap_append (xs : List String) (a : NodeRec) :
    getNode (canonHeap xs ++ [a]) xs.length = a := by
  rw [← length_canonHeap xs]
  exact getNode_append_length _ _

/-- Walking forward `k` steps from position `j` of a canonical chain (with
anything appended after it) lands on position `j + k` and never raises, as
long as `j + k` is still a chain position. -/
theorem walkFwd_canon (xs : List String) (rest : List NodeRec)
    (hd tl : Option Nat) (len : Int) :
    ∀ (k j : Nat), j + k < xs.length →
      walkFwd ⟨canonHeap xs ++ rest, hd, tl, some j, len⟩ k =
        Except.ok ⟨canonHeap xs ++ rest, hd, tl, some (j + k), len⟩ := by
  intro k
  induction k with
  | zero => intro j h; simp [walkFwd]
  | succ k ih =>
    intro j h
    have hj : j < xs.length := by omega
    have e : j + (k + 1) = (j + 1) + k := by omega
    rw [e]
    simp only [walkFwd]
    rw [getNode_canonHeap xs rest j hj]
    simp only [canonNode]
    rw [if_neg (show ¬(j + 1 = xs.length) by omega)]
    exact ih (j + 1) (by omega)

/-- Appending one value to a non-empty chain rewrites the `next_node` link of
the old last node to the fresh node and appends the fresh node. -/
theorem canonHeap_snoc (xs : List String) (d : String) (h : 1 ≤ xs.length) :
    canonHeap (xs ++ [d]) =
      (canonHeap xs).set (xs.length - 1)
          (canonNode (xs.length + 1) (xs.length - 1) (xs.getD (xs.length - 1) "")) ++
        [canonNode (xs.length + 1) xs.length d] := by
  apply List.ext_getElem?
  intro i
  by_cases hi : i < xs.length
  · have hgd : (xs ++ [d])[i]? = xs[i]? := List.getElem?_append_left hi
    rw [getElem?_canonHeap (xs ++ [d]) i (by simp; omega),
      List.getElem?_append_left (by simp [length_canonHeap]; omega)]
    by_cases he : i = xs.length - 1
    · subst he
      rw [List.getElem?_set_self (by rw [length_canonHeap]; omega)]
      simp [hgd]
    · rw [List.getElem?_set_ne (show xs.length - 1 ≠ i by omega),
        getElem?_canonHeap xs i hi]
      simp only [List.length_append, List.length_cons, List.length_nil,
        List.getD_eq_getElem?_getD, hgd, canonNode, Option.some.injEq,
        NodeRec.mk.injEq, true_and, and_true]
      rw [if_neg (by omega), if_neg (by omega)]
  · by_cases he : i = xs.length
    · subst he
      have hgd : (xs ++ [d])[xs.length]? = some d :=
        List.getElem?_concat_length xs d
      rw [getElem?_canonHeap (xs ++ [d]) xs.length (by simp),
        List.getElem?_append_right (by simp [length_canonHeap])]
      simp [length_canonHeap, List.getD_eq_getElem?_getD, hgd]
    · rw [List.getElem?_eq_none (by simp [length_canonHeap]; omega),
        List.getElem?_eq_none (by simp [length_canonHeap]; omega)]

/-- Lemma: `set_current_index` on a canonical chain (with anything appended after
it, and any prior cursor) with an in-range index: no error, cursor lands on
the index. -/
theorem set_current_index_canon (xs : List String) (rest : List NodeRec)
    (cur : Option Nat) (index : Nat) (h1 : 1 ≤ xs.length)
    (h2 : index ≤ xs.length - 1) :
    set_current_index
        ⟨canonHeap xs ++ rest, some 0, some (xs.length - 1), cur,
          (xs.length : Int)⟩ index =
      (Except.ok (),
        ⟨canonHeap xs ++ rest, some 0, some (xs.length - 1), some index,
          (xs.length : Int)⟩) := by
  have hw := walkFwd_canon xs rest (some 0) (some (xs.length - 1))
    (xs.length : Int) index 0 (by omega)
  simp only [Nat.zero_add] at hw
  simp only [set_current_index]
  rw [if_neg (by simp; omega)]
  simp only [hw]

/-- One step of the population loop: inserting `d` with `after=True` at the
index of the current last element appends it to the canonical chain. -/
theorem insert_node_snoc (xs : List String) (d : String) (h : 1 ≤ xs.length) :
    insert_node (canonState xs) d true (xs.length - 1) =
      (Except.ok xs.length, canonState (xs ++ [d])) := by
  have hns : canonState xs =
      ⟨canonHeap xs, some 0, some (xs.length - 1), some (xs.length - 1),
        (xs.length : Int)⟩ := by
    unfold canonState; rw [if_neg (by omega)]
  rw [hns]
  simp only [insert_node, length_canonHeap]
  rw [set_current_index_canon xs [⟨d, none, none⟩] (some (xs.length - 1))
    (xs.length - 1) h (Nat.le_refl _)]
  dsimp only
  rw [if_neg (show ((xs.length : Int) = 0) → False by omega)]
  rw [if_pos rfl]
  rw [if_pos trivial]
  rw [getNode_canonHeap_append xs ⟨d, none, none⟩]
  dsimp only
  rw [set_canonHeap_append xs ⟨d, none, none⟩ ⟨d, some (xs.length - 1), none⟩]
  rw [getNode_canonHeap xs [⟨d, some (xs.length - 1), none⟩] (xs.length - 1)
    (by omega)]
  dsimp only [canonNode]
  rw [if_pos (show xs.length - 1 + 1 = xs.length by omega)]
  simp only [getNode_canonHeap_append xs ⟨d, some (xs.length - 1), none⟩]
  rw [set_canonHeap_append xs ⟨d, some (xs.length - 1), none⟩
    ⟨d, some (xs.length - 1), none⟩]
  simp only [getNode_canonHeap xs [⟨d, some (xs.length - 1), none⟩]
    (xs.length - 1) (by omega)]
  dsimp only [canonNode]
  rw [List.set_append_left _ _
    (show xs.length - 1 < (canonHeap xs).length by rw [length_canonHeap]; omega)]
  unfold canonState
  rw [if_neg (show ((xs ++ [d]).length = 0) → False by simp)]
  rw [canonHeap_snoc xs d h]
  dsimp only [canonNode]
  rw [if_neg (show (xs.length - 1 + 1 = xs.length + 1) → False by omega),
    if_pos (show xs.length + 1 = xs.length + 1 from rfl),
    if_neg (show (xs.length = 0) → False by omega)]
  rw [show xs.length - 1 + 1 = xs.length by omega]
  simp only [List.length_append, List.length_cons, List.length_nil,
    Nat.add_sub_cancel]
  norm_cast

/-- The whole population loop keeps the state canonical. -/
theorem buildLoop_canon (ds : List String) :
    ∀ xs : List String, 1 ≤ xs.length →
      buildLoop (canonState xs) xs.length ds = canonState (xs ++ ds) := by
  induction ds with
  | nil => intro xs h; simp [buildLoop]
  | cons d ds ih =>
    intro xs h
    rw [buildLoop]
    rw [insert_node_snoc xs d h]
    have hih := ih (xs ++ [d]) (by simp)
    simp only [List.length_append, List.length_cons, List.length_nil,
      List.append_assoc, List.singleton_append] at hih
    exact hih

/-- Characterisation of the constructor: `LinkedList(xs)` is the canonical
chain of `xs`, with the cursor left on the tail. -/
theorem fromList_eq (xs : List String) : fromList xs = canonState xs := by
  cases xs with
  | nil => rfl
  | cons d ds =>
    rw [fromList]
    rw [show (insert_node emptyList d false 0).2 = canonState [d] from rfl]
    have hb := buildLoop_canon ds [d] (by simp)
    simpa using hb

/-- Specialisation of `set_current_index_canon` to a plain canonical heap. -/
theorem set_current_index_canon0 (xs : List String) (cur : Option Nat)
    (index : Nat) (h1 : 1 ≤ xs.length) (h2 : index ≤ xs.length - 1) :
    set_current_index
        ⟨canonHeap xs, some 0, some (xs.length - 1), cur, (xs.length : Int)⟩
        index =
      (Except.ok (),
        ⟨canonHeap xs, some 0, some (xs.length - 1), some index,
          (xs.length : Int)⟩) := by
  have hs := set_current_index_canon xs [] cur index h1 h2
  simpa using hs

/-- The last node of a canonical chain: it carries the last value and its
`next_node` link is `None`. -/
theorem getNode_canon_last (xs : List String) (h : 1 ≤ xs.length) :
    getNode (canonHeap xs) (xs.length - 1) =
      ⟨xs.getD (xs.length - 1) (""),
        if xs.length - 1 = 0 then none else some (xs.length - 1 - 1),
        none⟩ := by
  rw [getNode_canonHeap0 xs (xs.length - 1) (by omega)]
  dsimp only [canonNode]
  rw [if_pos (show xs.length - 1 + 1 = xs.length by omega)]

/-- Helper for C4: with `indexes` empty and `all_nodes=False` no iteration
ever matches, so the walk reference never advances; while it is non-`None`
the loop never finishes, whatever the fuel. -/
theorem gatherLoop_nil_stuck (s : LLState) (c : Nat) (hc : s.current = some c) :
    ∀ (fuel index : Nat) (acc : List (Nat × String)),
      gatherLoop [] false fuel s index acc = none := by
  intro fuel
  induction fuel with
  | zero => intro index acc; rfl
  | succ fuel ih =>
    intro index acc
    rw [gatherLoop, hc]
    simp only [List.contains, List.elem, Bool.false_or, Bool.false_eq_true,
      if_false]
    exact ih (index + 1) acc

/-- Helper for C3: with `indexes = [0, 2]`, once the loop counter passes 2 no
later iteration matches, so the walk reference stays put and the loop never
finishes. -/
theorem gatherLoop_02_stuck (s : LLState) (c : Nat) (hc : s.current = some c) :
    ∀ (fuel index : Nat) (acc : List (Nat × String)), 3 ≤ index →
      gatherLoop [0, 2] false fuel s index acc = none := by
  intro fuel
  induction fuel with
  | zero => intro index acc hidx; rfl
  | succ fuel ih =>
    intro index acc hidx
    rw [gatherLoop, hc]
    have hcont : (([0, 2] : List Nat).contains index) = false := by
      simp [List.contains]
      omega
    rw [hcont]
    simp only [Bool.false_or, Bool.false_eq_true, if_false]
    exact ih (index + 1) acc (by omega)

/-- C1: `remove_node` is claimed to correct the endpoints (the former
successor becomes `head` when the removed node had no predecessor).  The code
never touches `head`/`tail`: removing index 0 from `["a", "b"]` returns the
removed value, yet `head` still references the removed node 0 (data `"a"`)
and not the former successor, node 1. -/
theorem claimC1_remove_leaves_head_stale :
    (remove_node (fromList ["a", "b"]) 0).1 = Except.ok ("a") ∧
    (remove_node (fromList ["a", "b"]) 0).2.head = some 0 ∧
    (getNode (remove_node (fromList ["a", "b"]) 0).2.heap 0).data = "a" ∧
    (remove_node (fromList ["a", "b"]) 0).2.head ≠ some 1 := by decide

/-- C2: the invariant `length == 0` iff `head == null` iff `tail == null` is
claimed to be preserved by every operation, and removing the sole element is
claimed to leave `head`, `tail` and `cursor` null.  Removing the sole element
of `["a"]` gives `length = 0` and a null cursor, but `head` and `tail` still
reference the removed node. -/
theorem claimC2_remove_sole_leaves_stale_endpoints :
    (remove_node (fromList ["a"]) 0).2.length = 0 ∧
    (remove_node (fromList ["a"]) 0).2.current = none ∧
    (remove_node (fromList ["a"]) 0).2.head ≠ none ∧
    (remove_node (fromList ["a"]) 0).2.tail ≠ none := by decide

/-- C3: `gather_node_data` on `["a", "b", "c"]` with `indexes = [0, 2]` and
`all_nodes = False` is claimed to return `[(0, "a"), (2, "c")]` in one pass,
the walk advancing every iteration.  In the code the walk reference advances
only on a match, so the loop records `(2, "b")` and then never terminates:
for every fuel bound the loop is still running. -/
theorem claimC3_gather_non_contiguous_diverges : ∀ fuel : Nat,
    gather_node_data (fromList ["a", "b", "c"]) [0, 2] false fuel = none := by
  intro fuel
  match fuel with
  | 0 => rfl
  | 1 => rfl
  | 2 => rfl
  | (f + 3) =>
    exact gatherLoop_02_stuck
      ⟨(fromList ["a", "b", "c"]).heap, some 0, some 2, some 2, 3⟩ 2 rfl f 3
      [(0, "a"), (2, "b")] (by omega)

/-- C4: every operation is claimed to terminate for every list state and
argument combination, in particular `gather_node_data`.  On the non-empty
list `["a"]` with `indexes = []` and `all_nodes = False` the walk reference
never advances and the loop never terminates: for every fuel bound it is
still running. -/
theorem claimC4_gather_empty_indexes_diverges : ∀ fuel : Nat,
    gather_node_data (fromList ["a"]) [] false fuel = none := by
  intro fuel
  exact gatherLoop_nil_stuck
    ⟨(fromList ["a"]).heap, some 0, some 0, some 0, 1⟩ 0 rfl fuel 0 []

/-- C5: `remove_node(i)` is claimed to return the prior value at `i`,
decrement `length`, and leave `find_node_by_index(i)` returning what was at
`i + 1`.  On `["a", "b"]` with `i = 0` the first two parts hold, but
`find_node_by_index(0)` walks from the stale `head` and returns the removed
node 0, whose data is still `"a"`, not `"b"`. -/
theorem claimC5_find_after_remove_returns_stale :
    (remove_node (fromList ["a", "b"]) 0).1 = Except.ok ("a") ∧
    (remove_node (fromList ["a", "b"]) 0).2.length = 1 ∧
    (find_node_by_index (remove_node (fromList ["a", "b"]) 0).2 0).1 =
      Except.ok (some 0) ∧
    (getNode (remove_node (fromList ["a", "b"]) 0).2.heap 0).data = "a" ∧
    (getNode (remove_node (fromList ["a", "b"]) 0).2.heap 0).data ≠ "b" := by
  decide

/-- C6: both `set_current_index` and `find_node_by_index` are claimed to fail
with the out-of-bounds `LinkedListError` whenever `index ≥ length` on a
non-empty list.  On `["a"]` with index 1, `set_current_index` does raise it,
but `find_node_by_index` raises nothing: the walk assigns
`current = tail.next_node = None` and returns that `None` cursor. -/
theorem claimC6_find_at_length_no_error :
    (set_current_index (fromList ["a"]) 1).1 =
      Except.error (PyErr.linkedListError ("Index is out of bounds")) ∧
    (find_node_by_index (fromList ["a"]) 1).1 = Except.ok none ∧
    (find_node_by_index (fromList ["a"]) 1).2.current = none := by decide

/-- C7, counterexample: the cursor is claimed to be null only when
`length == 0`.  Removing the tail of `["a", "b"]` leaves the cursor null
while `length = 1`. -/
theorem claimC7_counterexample :
    (remove_node (fromList ["a", "b"]) 1).2.current = none ∧
    (remove_node (fromList ["a", "b"]) 1).2.length = 1 := by decide

/-- C7, amended: operations can leave the cursor null on a non-empty list:
for every list of length at least 2, removing the tail succeeds (returning
the data of the tail) and moves the cursor to the former successor of the
removed node, which is null, while `length` stays at least 1. -/
theorem claimC7_remove_tail_cursor_none (xs : List String)
    (h : 2 ≤ xs.length) :
    (remove_node (fromList xs) (xs.length - 1)).1 =
        Except.ok (xs.getD (xs.length - 1) ("")) ∧
    (remove_node (fromList xs) (xs.length - 1)).2.current = none ∧
    (remove_node (fromList xs) (xs.length - 1)).2.length =
        (xs.length : Int) - 1 ∧
    1 ≤ (xs.length : Int) - 1 := by
  have hcs : fromList xs =
      ⟨canonHeap xs, some 0, some (xs.length - 1), some (xs.length - 1),
        (xs.length : Int)⟩ := by
    rw [fromList_eq]; unfold canonState; rw [if_neg (by omega)]
  obtain ⟨hp, hrm⟩ : ∃ hp, remove_node (fromList xs) (xs.length - 1) =
      (Except.ok (xs.getD (xs.length - 1) ("")),
        ⟨hp, some 0, some (xs.length - 1), none, (xs.length : Int) - 1⟩) := by
    rw [hcs]
    simp only [remove_node]
    rw [set_current_index_canon0 xs (some (xs.length - 1)) (xs.length - 1)
      (by omega) (Nat.le_refl _)]
    dsimp only
    rw [getNode_canon_last xs (by omega)]
    rw [if_neg (show (xs.length - 1 = 0) → False by omega)]
    dsimp only
    rw [getNode_set_ne (canonHeap xs) (xs.length - 1 - 1) (xs.length - 1) _
      (by omega)]
    rw [getNode_canon_last xs (by omega)]
    rw [if_neg (show (xs.length - 1 = 0) → False by omega)]
    dsimp only
    rw [getNode_set_ne (canonHeap xs) (xs.length - 1 - 1) (xs.length - 1) _
      (by omega)]
    rw [getNode_canon_last xs (by omega)]
    dsimp only
    exact ⟨_, rfl⟩
  rw [hrm]
  exact ⟨rfl, rfl, rfl, by omega⟩

/-- C7, witness: the amended statement applied to `["a", "b"]`. -/
theorem claimC7_witness :
    2 ≤ (["a", "b"] : List String).length ∧
    ((remove_node (fromList ["a", "b"]) (["a", "b"].length - 1)).1 =
        Except.ok (["a", "b"].getD (["a", "b"].length - 1) ("")) ∧
      (remove_node (fromList ["a", "b"]) (["a", "b"].length - 1)).2.current =
        none ∧
      (remove_node (fromList ["a", "b"]) (["a", "b"].length - 1)).2.length =
        ((["a", "b"] : List String).length : Int) - 1 ∧
      1 ≤ ((["a", "b"] : List String).length : Int) - 1) :=
  ⟨by decide, claimC7_remove_tail_cursor_none ["a", "b"] (by decide)⟩

/-- C8: constructing from `["a", "b", "c"]` yields head value `"a"`, tail
value `"c"`, length 3, and `gather_node_data` with `all_nodes = True` returns
`[(0, "a"), (1, "b"), (2, "c")]` (values inserted left to right, in order).
Fuel 4 covers the three matching iterations plus the final null test. -/
theorem claimC8_construct_abc :
    (fromList ["a", "b", "c"]).head = some 0 ∧
    (getNode (fromList ["a", "b", "c"]).heap 0).data = "a" ∧
    (fromList ["a", "b", "c"]).tail = some 2 ∧
    (getNode (fromList ["a", "b", "c"]).heap 2).data = "c" ∧
    (fromList ["a", "b", "c"]).length = 3 ∧
    (gather_node_data (fromList ["a", "b", "c"]) [] true 4).map
        (fun r => r.1) =
      some [(0, "a"), (1, "b"), (2, "c")] := by decide

/-- C9: on every freshly built non-empty list the cursor sits on the tail,
and `next_node` from there is idempotent: each of any number of calls returns
the tail node, leaves the whole state (hence the cursor) unchanged, and
raises no error. -/
theorem claimC9_next_node_idempotent_at_tail (xs : List String) (h : xs ≠ [])
    (k : Nat) :
    (fromList xs).current = (fromList xs).tail ∧
    (fromList xs).tail = some (xs.length - 1) ∧
    next_node (fromList xs) = (Except.ok (xs.length - 1), fromList xs) ∧
    nextIter k (fromList xs) = fromList xs := by
  have hn : 1 ≤ xs.length := List.length_pos.mpr h
  have hcs : fromList xs =
      ⟨canonHeap xs, some 0, some (xs.length - 1), some (xs.length - 1),
        (xs.length : Int)⟩ := by
    rw [fromList_eq]; unfold canonState; rw [if_neg (by omega)]
  have hnext : next_node (fromList xs) =
      (Except.ok (xs.length - 1), fromList xs) := by
    rw [hcs]
    simp only [next_node]
    rw [getNode_canon_last xs hn]
  refine ⟨by rw [hcs], by rw [hcs], hnext, ?_⟩
  induction k with
  | zero => rfl
  | succ k ih => rw [nextIter, hnext]; exact ih

/-- C9, witness: the statement applied to `["a", "b"]` with three calls. -/
theorem claimC9_witness :
    (["a", "b"] : List String) ≠ [] ∧
    ((fromList ["a", "b"]).current = (fromList ["a", "b"]).tail ∧
      (fromList ["a", "b"]).tail = some (["a", "b"].length - 1) ∧
      next_node (fromList ["a", "b"]) =
        (Except.ok (["a", "b"].length - 1), fromList ["a", "b"]) ∧
      nextIter 3 (fromList ["a", "b"]) = fromList ["a", "b"]) :=
  ⟨by decide, claimC9_next_node_idempotent_at_tail ["a", "b"] (by decide) 3⟩

/-- C10: on the empty list, `remove_node(0)` and `modify_node(d, 0)` raise
`AttributeError` (dereferencing the `None` cursor), not the `LinkedListError`
of the library, and leave `head`, `tail`, `cursor` and `length` exactly as
before the call (the failed call returns the unchanged empty state). -/
theorem claimC10_empty_remove_modify_attribute_error (d : String) :
    remove_node emptyList 0 = (Except.error PyErr.attributeError, emptyList) ∧
    modify_node emptyList d 0 = (Except.error PyErr.attributeError, emptyList) :=
  ⟨by decide, rfl⟩

end LinkedList
